import Mathlib

/-!
Verification of the reschedule-distant-todos engine and its date utilities,
as implemented in `src/things-url.ts` (inline test re-implementation of the
handler logic: `formatDateLocal`, `parseDateOnly`, `daysBetween`,
`simulateRescheduleLogic`) and of the Things URL builder (`buildURL`,
`buildUpdateTodoURL`).

The JavaScript `Date` object is modelled as an integer millisecond timestamp
(`Int`), with the host in a fixed-offset (DST-free) local time, so local
midnight instants are exact multiples of `msPerDay`.  Calendar conversions
follow the ECMAScript specification (`MakeDay`, `YearFromTime`,
`MonthFromTime`, `DateFromTime`) on the proleptic Gregorian calendar,
including the `new Date(y, m, d)` mapping of years 0–99 to 1900–1999.
-/

/-! ## Proleptic Gregorian calendar core -/

/-- Days from the start of a 400-year era to the start of (March-based)
year-of-era `y`: `365 * y` plus one leap day for every fourth year, minus one
for every hundredth. -/
def dayOfEra (y : Int) : Int := 365 * y + y / 4 - y / 100

/-- Day number (days since 1970-01-01) of the civil date `(y, m, d)` with
`m ∈ [1,12]`.  This is the calendar arithmetic behind ECMAScript `MakeDay`. -/
def daysFromCivil (y m d : Int) : Int :=
  let y' := if m ≤ 2 then y - 1 else y
  let era := y' / 400
  let yoe := y' - era * 400
  let doy := (153 * (if 2 < m then m - 3 else m + 9) + 2) / 5 + d - 1
  let doe := yoe * 365 + yoe / 4 - yoe / 100 + doy
  era * 146097 + doe - 719468

/-- Civil date `(year, month, day)` of a day number (days since 1970-01-01);
the inverse of `daysFromCivil`.  This models ECMAScript `YearFromTime`,
`MonthFromTime + 1` and `DateFromTime`.  The year-of-era is located by a
bounded search from the estimate `doe / 366`. -/
def civilFromDays (z : Int) : Int × Int × Int :=
  let z' := z + 719468
  let era := z' / 146097
  let doe := z' - era * 146097
  let y0 := doe / 366
  let yoe := if y0 < 399 ∧ dayOfEra (y0 + 1) ≤ doe then y0 + 1 else y0
  let y := yoe + era * 400
  let doy := doe - dayOfEra yoe
  let mp := (5 * doy + 2) / 153
  let d := doy - (153 * mp + 2) / 5 + 1
  let m := mp + (if mp < 10 then 3 else -9)
  (if m ≤ 2 then y + 1 else y, m, d)

/-! ## The JavaScript Date model -/

def msPerDay : Int := 1000 * 60 * 60 * 24

/-- ECMAScript `MakeDay(y, m, d)` (in days): month index `m` is 0-based and
may overflow into adjacent years; the day `d` is 1-based and may overflow
into adjacent months. -/
def mkDay (y m d : Int) : Int :=
  let ym := y + m / 12
  let mn := m % 12
  daysFromCivil ym (mn + 1) 1 + d - 1

/-- The timestamp produced by `new Date(y, m, d)` (local midnight in the
fixed-offset model), including the ECMAScript rule mapping year arguments
0–99 to 1900–1999. -/
def jsDateFromYMD (y m d : Int) : Int :=
  let yr := if 0 ≤ y ∧ y ≤ 99 then 1900 + y else y
  msPerDay * mkDay yr m d

/-- ECMAScript `Day(t)`: the day number containing timestamp `t`
(`Int` division is Euclidean, which is floor division here since
`msPerDay > 0`). -/
def jsDay (t : Int) : Int := t / msPerDay

/-- `Date.prototype.getFullYear`. -/
def getFullYear (t : Int) : Int := (civilFromDays (jsDay t)).1

/-- `Date.prototype.getMonth` (0-based). -/
def getMonth (t : Int) : Int := (civilFromDays (jsDay t)).2.1 - 1

/-- `Date.prototype.getDate` (1-based day of month). -/
def getDate (t : Int) : Int := (civilFromDays (jsDay t)).2.2

/-- `Date.prototype.setDate(x)`: rebuild the timestamp from the date's own
year and month with day-of-month `x` (which may overflow either way),
keeping the time within the day. -/
def jsSetDate (t x : Int) : Int :=
  msPerDay * mkDay (getFullYear t) (getMonth t) x + (t - msPerDay * jsDay t)

/-! ## Decimal rendering and parsing of numbers (JS `String(n)` / `Number(s)`) -/

/-- The decimal digit characters. -/
def digitChar (n : Nat) : Char :=
  ['0', '1', '2', '3', '4', '5', '6', '7', '8', '9'].getD n '0'

/-- Fuel-driven decimal rendering of a natural number (most significant digit
first).  `fuel > number of digits` suffices; callers pass `n + 1`. -/
def natToDigitsAux : Nat → Nat → List Char
  | 0, _ => []
  | fuel + 1, n =>
    if n < 10 then [digitChar n]
    else natToDigitsAux fuel (n / 10) ++ [digitChar (n % 10)]

def natToString (n : Nat) : String := ⟨natToDigitsAux (n + 1) n⟩

/-- JS `String(i)` for an integer. -/
def jsString (i : Int) : String :=
  if i < 0 then "-" ++ natToString i.natAbs else natToString i.toNat

/-- Numeric value of one digit character, as in JS `Number` coercion. -/
def jsDigit (c : Char) : Int := (c.toNat : Int) - 48

/-- Models JS `Number(s)` on strings of decimal digits, the only shape the
date contract admits (`YYYY`, `MM`, `DD` fields); behaviour on other strings
is a caller contract violation and unspecified in the spec. -/
def jsNumber (s : String) : Int :=
  s.data.foldl (fun a c => a * 10 + jsDigit c) 0

/-! ## JS string primitives used by the date utilities -/

/-- JS `s.slice(0, 10)`. -/
def jsSlice10 (s : String) : String := ⟨s.data.take 10⟩

/-- JS `String.prototype.split` with a one-character separator: `""` splits
to `[""]`, and separators delimit (possibly empty) fields. -/
def jsSplitOnChar (c : Char) : List Char → List (List Char)
  | [] => [[]]
  | x :: xs =>
    match jsSplitOnChar c xs with
    | [] => [[]]
    | r :: rs => if x = c then [] :: r :: rs else (x :: r) :: rs

/-- JS `String.prototype.padStart(2, "0")`. -/
def padStart2 (s : String) : String :=
  ⟨List.replicate (2 - s.data.length) '0' ++ s.data⟩

/-! ## The date utilities from the source -/

/-- `formatDateLocal(date)`: zero-padded `YYYY-MM-DD` from the date's local
year, month and day (the year is rendered by `String(y)`, unpadded). -/
def formatDateLocal (t : Int) : String :=
  let y := getFullYear t
  let m := getMonth t + 1
  let d := getDate t
  jsString y ++ "-" ++ padStart2 (jsString m) ++ "-" ++ padStart2 (jsString d)

/-- `parseDateOnly(isoString)`: take the leading 10 characters, split on
`"-"`, coerce the three fields with `Number`, and build a local-midnight
`Date` from them (missing fields default like `Number(undefined)`, which is
outside the caller contract). -/
def parseDateOnly (s : String) : Int :=
  let datePart := jsSlice10 s
  let parts := (jsSplitOnChar '-' datePart.data).map (fun l => jsNumber ⟨l⟩)
  let year := parts.getD 0 0
  let month := parts.getD 1 0
  let day := parts.getD 2 0
  jsDateFromYMD year (month - 1) day

/-- `daysBetween(from, to)`: `Math.floor((to.getTime() - from.getTime()) / msPerDay)`. -/
def daysBetween (fromT toT : Int) : Int := (toT - fromT) / msPerDay

/-! ## The reschedule engine (`simulateRescheduleLogic`) -/

/-- One task from the Today list.  Optional fields model nullable strings;
JavaScript truthiness makes `null` and `""` behave alike. -/
structure TodoRecord where
  id : String
  name : String
  status : String
  dueDate : Option String
  activationDate : Option String
deriving DecidableEq, Repr

/-- JS truthiness of a nullable string field. -/
def truthyStr : Option String → Bool
  | none => false
  | some s => !(s == "")

/-- One emitted reschedule decision. -/
structure RescheduleDecision where
  id : String
  name : String
  oldWhen : Option String
  newWhen : String
  dueDate : String
  daysUntilDue : Int
deriving DecidableEq, Repr

/-- Skip reason: `"status is not open"`. -/
def skipStatus : String := "status is not open"

/-- Skip reason: `"no deadline set"`. -/
def skipNoDeadline : String := "no deadline set"

/-- Skip reason: `"explicitly scheduled for today (activationDate = today)"`. -/
def skipActToday : String := "explicitly scheduled for today (activationDate = today)"

/-- Skip reason: `"computed new date would not move to-do out of Today"`. -/
def skipNoOp : String := "computed new date would not move to-do out of Today"

/-- Skip reason: `"deadline within threshold (< ${daysThreshold} days)"`. -/
def skipThreshold (daysThreshold : Int) : String :=
  "deadline within threshold (< " ++ jsString daysThreshold ++ " days)"

/-- Outcome of the loop body for one todo: exactly one skip reason or one
decision. -/
inductive Outcome where
  | skip (reason : String)
  | emit (dec : RescheduleDecision)
deriving DecidableEq, Repr

/-- The loop body of `simulateRescheduleLogic`, filter by filter in source
order: status, deadline presence, explicit-today protection, threshold,
no-op guard, then emit. -/
def classifyTodo (daysThreshold bufferDays todayMidnight : Int) (todayStr : String)
    (todo : TodoRecord) : Outcome :=
  if todo.status ≠ "open" then Outcome.skip skipStatus
  else if truthyStr todo.dueDate = false then Outcome.skip skipNoDeadline
  else
    let due := todo.dueDate.getD ""
    if truthyStr todo.activationDate = true ∧
        formatDateLocal (parseDateOnly (todo.activationDate.getD "")) = todayStr then
      Outcome.skip skipActToday
    else
      let deadlineDate := parseDateOnly due
      let daysUntilDue := daysBetween todayMidnight deadlineDate
      if daysUntilDue < daysThreshold then Outcome.skip (skipThreshold daysThreshold)
      else
        let newWhenDate := jsSetDate deadlineDate (getDate deadlineDate - bufferDays)
        if newWhenDate ≤ todayMidnight then Outcome.skip skipNoOp
        else
          Outcome.emit
            { id := todo.id
              name := todo.name
              oldWhen :=
                if truthyStr todo.activationDate = true then
                  some (formatDateLocal (parseDateOnly (todo.activationDate.getD "")))
                else none
              newWhen := formatDateLocal newWhenDate
              dueDate := jsSlice10 due
              daysUntilDue := daysUntilDue }

/-- `skippedSummary[reason] = (skippedSummary[reason] ?? 0) + 1` on a JS
object, as an insertion-ordered association list: an existing key is bumped
in place, a new key is appended. -/
def bump : List (String × Nat) → String → List (String × Nat)
  | [], reason => [(reason, 1)]
  | (r, n) :: rest, reason =>
    if r = reason then (r, n + 1) :: rest else (r, n) :: bump rest reason

/-- Fold step of the engine loop: apply the classified outcome to the
accumulated `(rescheduled, skippedSummary)` state. -/
def stepTodo (daysThreshold bufferDays todayMidnight : Int) (todayStr : String)
    (acc : List RescheduleDecision × List (String × Nat)) (todo : TodoRecord) :
    List RescheduleDecision × List (String × Nat) :=
  match classifyTodo daysThreshold bufferDays todayMidnight todayStr todo with
  | Outcome.skip r => (acc.1, bump acc.2 r)
  | Outcome.emit d => (acc.1 ++ [d], acc.2)

/-- Result shape of `simulateRescheduleLogic`. -/
structure RescheduleResult where
  rescheduled : List RescheduleDecision
  skippedSummary : List (String × Nat)
  totalToday : Nat
deriving DecidableEq, Repr

/-- `new Date(now.getFullYear(), now.getMonth(), now.getDate())`: local
midnight of the day containing `now`. -/
def todayMidnightOf (now : Int) : Int :=
  jsDateFromYMD (getFullYear now) (getMonth now) (getDate now)

/-- `simulateRescheduleLogic(todos, options)`: the engine.  `daysThreshold`
and `bufferDays` default to 7 and 3 (the `??` defaults); `now` is the
evaluation instant. -/
def simulateRescheduleLogic (todos : List TodoRecord)
    (daysThresholdOpt bufferDaysOpt : Option Int) (now : Int) : RescheduleResult :=
  let daysThreshold := daysThresholdOpt.getD 7
  let bufferDays := bufferDaysOpt.getD 3
  let todayMidnight := todayMidnightOf now
  let todayStr := formatDateLocal todayMidnight
  let r := todos.foldl (stepTodo daysThreshold bufferDays todayMidnight todayStr) ([], [])
  ⟨r.1, r.2, todos.length⟩

/-- Sum of the per-reason counts of a skip report. -/
def sumCounts (l : List (String × Nat)) : Nat := (l.map Prod.snd).sum

/-- Association-list lookup of a skip count (JS `skippedSummary[reason]`,
`0` when absent). -/
def countOf (l : List (String × Nat)) (reason : String) : Nat :=
  match l.find? (fun kv => kv.1 == reason) with
  | some kv => kv.2
  | none => 0

/-- The decision carried by an `emit` outcome, if any. -/
def emitted : Outcome → Option RescheduleDecision
  | Outcome.skip _ => none
  | Outcome.emit d => some d

/-! ## The Things URL builder (`buildURL` and friends) -/

/-- A value of the JS record `Record<string, string | boolean | undefined>`. -/
inductive JsVal where
  | undef
  | str (s : String)
  | bool (b : Bool)
deriving DecidableEq, Repr

/-- Hexadecimal digit characters (upper case, as `encodeURIComponent`
produces). -/
def hexChar (n : Nat) : Char :=
  ['0', '1', '2', '3', '4', '5', '6', '7', '8', '9', 'A', 'B', 'C', 'D', 'E', 'F'].getD n '0'

/-- Characters `encodeURIComponent` leaves unescaped. -/
def isUriUnreserved (c : Char) : Bool :=
  c.isAlphanum || c == '-' || c == '_' || c == '.' || c == '!' || c == '~' ||
    c == '*' || c == '\'' || c == '(' || c == ')'

/-- Percent-encoding of one character's UTF-8 bytes. -/
def percentEncodeChar (c : Char) : List Char :=
  (String.toUTF8 ⟨[c]⟩).toList.foldr
    (fun b acc => '%' :: hexChar (b.toNat / 16) :: hexChar (b.toNat % 16) :: acc) []

/-- `encodeParam` = `encodeURIComponent`. -/
def encodeParam (s : String) : String :=
  ⟨(s.data.map (fun c => if isUriUnreserved c then [c] else percentEncodeChar c)).flatten⟩

/-- The filter inside `buildURL`: drop entries whose value is `undefined`
or the empty string. -/
def filteredParams (params : List (String × JsVal)) : List (String × JsVal) :=
  params.filter (fun kv => !(kv.2 == JsVal.undef) && !(kv.2 == JsVal.str ""))

/-- Serialization of one surviving key/value pair: booleans verbatim,
strings through `encodeParam`. -/
def serializePair : String × JsVal → String
  | (k, JsVal.bool b) => k ++ "=" ++ (if b then "true" else "false")
  | (k, JsVal.str s) => k ++ "=" ++ encodeParam s
  | (k, JsVal.undef) => k ++ "="

/-- `buildURL(command, params)`: bare `things:///<command>` when every
parameter is filtered out, otherwise the `?`-joined query string. -/
def buildURL (command : String) (params : List (String × JsVal)) : String :=
  let fp := filteredParams params
  if fp = [] then "things:///" ++ command
  else "things:///" ++ command ++ "?" ++ String.intercalate "&" (fp.map serializePair)

/-- `UpdateTodoParams` (fields in kebab-case in the source; `authToken` is
`"auth-token"`, `prependNotes` is `"prepend-notes"`, and so on). -/
structure UpdateTodoParams where
  authToken : String
  id : String
  title : Option String
  notes : Option String
  prependNotes : Option String
  appendNotes : Option String
  when : Option String
  deadline : Option String
  tags : Option String
  addTags : Option String
  checklistItems : Option String
  prependChecklistItems : Option String
  appendChecklistItems : Option String
  listId : Option String
  list : Option String
  headingId : Option String
  heading : Option String
  completed : Option Bool
  canceled : Option Bool
  reveal : Option Bool
  duplicate : Option Bool
  creationDate : Option String
  completionDate : Option String
deriving DecidableEq, Repr

/-- A parameter included whenever the field is not `undefined`
(`!== undefined` checks in the source). -/
def presentParam (key : String) : Option String → List (String × JsVal)
  | some s => [(key, JsVal.str s)]
  | none => []

/-- A parameter included only when the field is truthy (plain `if (x)`
checks in the source drop both `undefined` and `""`). -/
def truthyParam (key : String) : Option String → List (String × JsVal)
  | some s => if s = "" then [] else [(key, JsVal.str s)]
  | none => []

/-- A boolean parameter included whenever the field is not `undefined`. -/
def presentBoolParam (key : String) : Option Bool → List (String × JsVal)
  | some b => [(key, JsVal.bool b)]
  | none => []

/-- The `urlParams` record assembled by `buildUpdateTodoURL`, in the
source's insertion order.  The checklist fields' `.replace(/\n/g, "\n")` is
the identity and is modelled as such. -/
def updateTodoParamsList (p : UpdateTodoParams) : List (String × JsVal) :=
  [("auth-token", JsVal.str p.authToken), ("id", JsVal.str p.id)]
    ++ presentParam "title" p.title
    ++ presentParam "notes" p.notes
    ++ truthyParam "prepend-notes" p.prependNotes
    ++ truthyParam "append-notes" p.appendNotes
    ++ presentParam "when" p.when
    ++ presentParam "deadline" p.deadline
    ++ presentParam "tags" p.tags
    ++ truthyParam "add-tags" p.addTags
    ++ truthyParam "checklist-items" p.checklistItems
    ++ truthyParam "prepend-checklist-items" p.prependChecklistItems
    ++ truthyParam "append-checklist-items" p.appendChecklistItems
    ++ truthyParam "list-id" p.listId
    ++ truthyParam "list" p.list
    ++ truthyParam "heading-id" p.headingId
    ++ truthyParam "heading" p.heading
    ++ presentBoolParam "completed" p.completed
    ++ presentBoolParam "canceled" p.canceled
    ++ presentBoolParam "reveal" p.reveal
    ++ presentBoolParam "duplicate" p.duplicate
    ++ truthyParam "creation-date" p.creationDate
    ++ truthyParam "completion-date" p.completionDate

/-- `buildUpdateTodoURL(params)`. -/
def buildUpdateTodoURL (p : UpdateTodoParams) : String :=
  buildURL "update" (updateTodoParamsList p)

/-! ## The reschedule-distant-todos tool boundary -/

/-- Modelled from the spec: resolution of the auth token — the explicit
parameter first, the process-wide fallback second, and empty strings are
not tokens ("`authToken` must be non-empty").  The tool handler itself is
not part of the sources under verification (only its test driver is), so
this follows §6/§9 of the spec. -/
def resolveAuthToken (param fallback : Option String) : Option String :=
  match param with
  | some s => if s = "" then (match fallback with
      | some f => if f = "" then none else some f
      | none => none)
    else some s
  | none =>
    match fallback with
    | some f => if f = "" then none else some f
    | none => none

/-- A structured tool response: either a structured error or a report. -/
inductive ToolResponse where
  | err (message : String)
  | ok (dryRun : Bool) (report : RescheduleResult)
deriving DecidableEq, Repr

/-- Modelled from the spec: the reschedule-distant-todos tool entry.  When
no auth token resolves it returns the structured `"Auth token is required"`
error before consulting the Today list or the engine; otherwise it fetches
the Today list and evaluates the engine.  (The write dispatch past the
engine is out of scope here.) -/
def rescheduleDistantTodos (authToken fallback : Option String)
    (dryRun : Bool) (daysThresholdOpt bufferDaysOpt : Option Int)
    (fetchToday : Unit → List TodoRecord) (now : Int) : ToolResponse :=
  match resolveAuthToken authToken fallback with
  | none => ToolResponse.err "Auth token is required"
  | some _ =>
    ToolResponse.ok dryRun
      (simulateRescheduleLogic (fetchToday ()) daysThresholdOpt bufferDaysOpt now)

/-! ## Calendar lemmas -/

/-- Reassembly: `daysFromCivil` inverts the month/day/year extraction of
`civilFromDays`, stated over the extracted components. -/
theorem civil_assemble (era yoe doe doy mp z : Int)
    (hyoe0 : 0 ≤ yoe) (hyoe1 : yoe ≤ 399)
    (hdoy : doy = doe - (365 * yoe + yoe / 4 - yoe / 100))
    (hdoy0 : 0 ≤ doy) (hdoy1 : doy ≤ 365)
    (hmp : mp = (5 * doy + 2) / 153)
    (hz : era * 146097 + doe - 719468 = z) :
    daysFromCivil
      (if mp + (if mp < 10 then 3 else -9) ≤ 2 then yoe + era * 400 + 1 else yoe + era * 400)
      (mp + (if mp < 10 then 3 else -9))
      (doy - (153 * mp + 2) / 5 + 1) = z := by
  have hmp0 : 0 ≤ mp := by omega
  have hmp1 : mp ≤ 11 := by omega
  have hE : (yoe + era * 400) / 400 = era := by omega
  by_cases h10 : mp < 10
  · simp only [if_pos h10]
    have hng : ¬(mp + 3 ≤ 2) := by omega
    simp only [if_neg hng, daysFromCivil]
    have hg2 : 2 < mp + 3 := by omega
    simp only [if_pos hg2]
    rw [show mp + 3 - 3 = mp by ring]
    rw [hE, show yoe + era * 400 - era * 400 = yoe by ring]
    omega
  · simp only [if_neg h10]
    have hps : mp + -9 ≤ 2 := by omega
    simp only [if_pos hps, daysFromCivil]
    have hng2 : ¬(2 < mp + -9) := by omega
    simp only [if_neg hng2]
    rw [show yoe + era * 400 + 1 - 1 = yoe + era * 400 by ring]
    rw [show mp + -9 + 9 = mp by ring]
    rw [hE, show yoe + era * 400 - era * 400 = yoe by ring]
    omega

/-- `daysFromCivil` is a left inverse of `civilFromDays`: converting a day
number to a civil date and back is the identity, for every day number. -/
theorem daysFromCivil_civilFromDays (z : Int) :
    daysFromCivil (civilFromDays z).1 (civilFromDays z).2.1 (civilFromDays z).2.2 = z := by
  simp only [civilFromDays, dayOfEra]
  generalize hera : (z + 719468) / 146097 = era
  generalize hdoe : z + 719468 - era * 146097 = doe
  generalize hy0 : doe / 366 = y0
  have hb0 : 0 ≤ doe ∧ doe < 146097 := by omega
  by_cases hc : y0 < 399 ∧ 365 * (y0 + 1) + (y0 + 1) / 4 - (y0 + 1) / 100 ≤ doe
  · simp only [if_pos hc]
    exact civil_assemble era (y0 + 1) doe _ _ z (by omega) (by omega) rfl (by omega)
      (by omega) rfl (by omega)
  · simp only [if_neg hc]
    exact civil_assemble era y0 doe _ _ z (by omega) (by omega) rfl (by omega)
      (by omega) rfl (by omega)

/-- The civil date of any day number has a month in `[1, 12]` and a day of
month in `[1, 31]`. -/
theorem civilFromDays_bounds (z : Int) :
    1 ≤ (civilFromDays z).2.1 ∧ (civilFromDays z).2.1 ≤ 12 ∧
      1 ≤ (civilFromDays z).2.2 ∧ (civilFromDays z).2.2 ≤ 31 := by
  simp only [civilFromDays, dayOfEra]
  generalize hera : (z + 719468) / 146097 = era
  generalize hdoe : z + 719468 - era * 146097 = doe
  generalize hy0 : doe / 366 = y0
  have hb0 : 0 ≤ doe ∧ doe < 146097 := by omega
  by_cases hc : y0 < 399 ∧ 365 * (y0 + 1) + (y0 + 1) / 4 - (y0 + 1) / 100 ≤ doe
  · simp only [if_pos hc]
    split_ifs <;> omega
  · simp only [if_neg hc]
    split_ifs <;> omega

/-- `daysFromCivil` is linear in the day argument. -/
theorem daysFromCivil_day (y m d : Int) :
    daysFromCivil y m d = daysFromCivil y m 1 + (d - 1) := by
  simp only [daysFromCivil]
  split_ifs <;> ring

/-- `mkDay` applied to the extracted year/month of a day number `N` with a
day-of-month argument `x` lands `x - dayOfMonth N` days away from `N`:
ECMAScript day-of-month arithmetic is exact calendar day arithmetic. -/
theorem mkDay_civil (N x : Int) :
    mkDay (civilFromDays N).1 ((civilFromDays N).2.1 - 1) x =
      N + x - (civilFromDays N).2.2 := by
  have hb := civilFromDays_bounds N
  have hrt := daysFromCivil_civilFromDays N
  rcases hC : civilFromDays N with ⟨y, m, d⟩
  rw [hC] at hb hrt
  simp only at hb hrt ⊢
  obtain ⟨hm1, hm2, hd1, hd2⟩ := hb
  simp only [mkDay]
  rw [show (m - 1) / 12 = 0 by omega, show (m - 1) % 12 = m - 1 by omega]
  rw [show y + 0 = y by ring, show m - 1 + 1 = m by ring]
  have hlin := daysFromCivil_day y m d
  omega

/-- A midnight timestamp's day number is its multiplier. -/
theorem jsDay_midnight (k : Int) : jsDay (msPerDay * k) = k := by
  unfold jsDay msPerDay
  omega

/-- `setDate` on a local-midnight timestamp moves by exact calendar days
relative to the day of month. -/
theorem jsSetDate_midnight (N x : Int) :
    jsSetDate (msPerDay * N) x = msPerDay * (N + x - getDate (msPerDay * N)) := by
  unfold jsSetDate getFullYear getMonth getDate
  rw [jsDay_midnight, mkDay_civil]
  ring

/-- `parseDateOnly` always returns a local-midnight timestamp. -/
theorem parseDateOnly_midnight (s : String) :
    parseDateOnly s = msPerDay * jsDay (parseDateOnly s) := by
  simp only [parseDateOnly, jsDateFromYMD]
  rw [jsDay_midnight]

/-- `todayMidnightOf` always returns a local-midnight timestamp. -/
theorem todayMidnightOf_midnight (now : Int) :
    todayMidnightOf now = msPerDay * jsDay (todayMidnightOf now) := by
  simp only [todayMidnightOf, jsDateFromYMD]
  rw [jsDay_midnight]

/-- The computed reschedule target of a parsed deadline: pulling the day of
month back by `B` lands exactly `B` calendar days before the deadline's
day. -/
theorem newWhen_day (s : String) (B : Int) :
    jsSetDate (parseDateOnly s) (getDate (parseDateOnly s) - B) =
      msPerDay * (jsDay (parseDateOnly s) - B) := by
  obtain ⟨k, hk⟩ : ∃ k, parseDateOnly s = msPerDay * k :=
    ⟨jsDay (parseDateOnly s), parseDateOnly_midnight s⟩
  rw [hk, jsDay_midnight, jsSetDate_midnight]
  ring

/-- `daysBetween` of two local midnights is the exact signed day count. -/
theorem daysBetween_midnight (a b : Int) :
    daysBetween (msPerDay * a) (msPerDay * b) = b - a := by
  unfold daysBetween msPerDay
  omega

/-! ## Decimal digit lemmas -/

theorem digitChar_toNat (k : Nat) (h : k < 10) : (digitChar k).toNat = 48 + k := by
  interval_cases k <;> decide

theorem digitChar_ne_dash (k : Nat) (h : k < 10) : digitChar k ≠ '-' := by
  interval_cases k <;> decide

theorem jsDigit_digitChar (k : Nat) (h : k < 10) : jsDigit (digitChar k) = (k : Int) := by
  unfold jsDigit
  rw [digitChar_toNat k h]
  push_cast
  ring

theorem natToDigitsAux_small (fuel n : Nat) (hf : 0 < fuel) (h : n < 10) :
    natToDigitsAux fuel n = [digitChar n] := by
  cases fuel with
  | zero => omega
  | succ f => simp [natToDigitsAux, h]

theorem natToDigitsAux_step (fuel n : Nat) (hf : 0 < fuel) (h : 10 ≤ n) :
    natToDigitsAux fuel n = natToDigitsAux (fuel - 1) (n / 10) ++ [digitChar (n % 10)] := by
  cases fuel with
  | zero => omega
  | succ f =>
    simp only [natToDigitsAux]
    rw [if_neg (by omega : ¬ n < 10)]
    rfl

theorem natToString_one (n : Nat) (h : n < 10) :
    (natToString n).data = [digitChar n] := by
  unfold natToString
  rw [natToDigitsAux_small (n + 1) n (by omega) h]

theorem natToString_two (n : Nat) (h1 : 10 ≤ n) (h2 : n < 100) :
    (natToString n).data = [digitChar (n / 10), digitChar (n % 10)] := by
  unfold natToString
  rw [natToDigitsAux_step (n + 1) n (by omega) h1,
    natToDigitsAux_small (n + 1 - 1) (n / 10) (by omega) (by omega)]
  rfl

theorem natToString_four (n : Nat) (h1 : 1000 ≤ n) (h2 : n < 10000) :
    (natToString n).data =
      [digitChar (n / 10 / 10 / 10), digitChar (n / 10 / 10 % 10),
        digitChar (n / 10 % 10), digitChar (n % 10)] := by
  unfold natToString
  rw [natToDigitsAux_step (n + 1) n (by omega) (by omega),
    natToDigitsAux_step (n + 1 - 1) (n / 10) (by omega) (by omega),
    natToDigitsAux_step (n + 1 - 1 - 1) (n / 10 / 10) (by omega) (by omega),
    natToDigitsAux_small (n + 1 - 1 - 1 - 1) (n / 10 / 10 / 10) (by omega) (by omega)]
  rfl

theorem padStart2_data (s : String) :
    (padStart2 s).data = List.replicate (2 - s.data.length) '0' ++ s.data := rfl

/-- Two-digit zero-padded rendering of a number below 100. -/
theorem pad2_natToString (k : Nat) (h : k < 100) :
    (padStart2 (natToString k)).data = [digitChar (k / 10), digitChar (k % 10)] := by
  by_cases h1 : k < 10
  · rw [padStart2_data, natToString_one k h1]
    rw [show k / 10 = 0 by omega, show k % 10 = k by omega]
    rfl
  · rw [padStart2_data, natToString_two k (by omega) h]
    rfl

/-! ## JS string splitting lemmas -/

theorem jsSplitOnChar_ne_nil (c : Char) (l : List Char) : jsSplitOnChar c l ≠ [] := by
  cases l with
  | nil => simp [jsSplitOnChar]
  | cons x xs =>
    simp only [jsSplitOnChar]
    rcases h : jsSplitOnChar c xs with _ | ⟨r, rs⟩
    · simp
    · split_ifs <;> simp

theorem jsSplitOnChar_no_sep (c : Char) (a : List Char) (ha : c ∉ a) :
    jsSplitOnChar c a = [a] := by
  induction a with
  | nil => rfl
  | cons x xs ih =>
    have hx : x ≠ c := fun h => ha (by simp [h])
    have hxs : c ∉ xs := fun h => ha (List.mem_cons_of_mem _ h)
    simp only [jsSplitOnChar]
    rw [ih hxs]
    simp only [if_neg hx]

theorem jsSplitOnChar_sep (c : Char) (a b : List Char) (ha : c ∉ a) :
    jsSplitOnChar c (a ++ c :: b) = a :: jsSplitOnChar c b := by
  induction a with
  | nil =>
    simp only [List.nil_append, jsSplitOnChar]
    rcases h : jsSplitOnChar c b with _ | ⟨r, rs⟩
    · exact absurd h (jsSplitOnChar_ne_nil c b)
    · simp
  | cons x xs ih =>
    have hx : x ≠ c := fun h => ha (by simp [h])
    have hxs : c ∉ xs := fun h => ha (List.mem_cons_of_mem _ h)
    simp only [List.cons_append, jsSplitOnChar, List.append_eq]
    rw [ih hxs]
    simp only [if_neg hx]

theorem jsString_nonneg (i : Int) (h : 0 ≤ i) : jsString i = natToString i.toNat := by
  unfold jsString
  rw [if_neg (by omega)]

theorem formatDateLocal_midnight_data (N : Int) (h0 : 0 ≤ (civilFromDays N).1) :
    (formatDateLocal (msPerDay * N)).data =
      (natToString (civilFromDays N).1.toNat).data ++
        '-' :: ((padStart2 (natToString (civilFromDays N).2.1.toNat)).data ++
        '-' :: (padStart2 (natToString (civilFromDays N).2.2.toNat)).data) := by
  have hb := civilFromDays_bounds N
  simp only [formatDateLocal]
  have hY : getFullYear (msPerDay * N) = (civilFromDays N).1 := by
    unfold getFullYear; rw [jsDay_midnight]
  have hM : getMonth (msPerDay * N) + 1 = (civilFromDays N).2.1 := by
    unfold getMonth; rw [jsDay_midnight]; ring
  have hD : getDate (msPerDay * N) = (civilFromDays N).2.2 := by
    unfold getDate; rw [jsDay_midnight]
  rw [hY, hM, hD]
  rw [jsString_nonneg _ (by omega), jsString_nonneg _ (by omega), jsString_nonneg _ (by omega)]
  simp [String.data_append]

set_option maxHeartbeats 1000000 in
theorem parse_format_roundtrip (N : Int) (rest : List Char)
    (h1 : 1000 ≤ (civilFromDays N).1) (h2 : (civilFromDays N).1 ≤ 9999) :
    parseDateOnly ⟨(formatDateLocal (msPerDay * N)).data ++ rest⟩ = msPerDay * N := by
  have hb := civilFromDays_bounds N
  have hmk := mkDay_civil N (civilFromDays N).2.2
  have hfmt := formatDateLocal_midnight_data N (by omega)
  rcases hC : civilFromDays N with ⟨y, m, d⟩
  rw [hC] at h1 h2 hb hmk hfmt
  simp only at h1 h2 hb hmk hfmt
  obtain ⟨hm1, hm2, hd1, hd2⟩ := hb
  have hYdata := natToString_four y.toNat (by omega) (by omega)
  have hMdata := pad2_natToString m.toNat (by omega)
  have hDdata := pad2_natToString d.toNat (by omega)
  -- the ten characters of the formatted date
  have hYnd : '-' ∉ (natToString y.toNat).data := by
    rw [hYdata]
    intro hmem
    simp only [List.mem_cons, List.not_mem_nil, or_false] at hmem
    rcases hmem with h | h | h | h <;> exact digitChar_ne_dash _ (by omega) h.symm
  have hMnd : '-' ∉ (padStart2 (natToString m.toNat)).data := by
    rw [hMdata]
    intro hmem
    simp only [List.mem_cons, List.not_mem_nil, or_false] at hmem
    rcases hmem with h | h <;> exact digitChar_ne_dash _ (by omega) h.symm
  have hDnd : '-' ∉ (padStart2 (natToString d.toNat)).data := by
    rw [hDdata]
    intro hmem
    simp only [List.mem_cons, List.not_mem_nil, or_false] at hmem
    rcases hmem with h | h <;> exact digitChar_ne_dash _ (by omega) h.symm
  have hlen : (formatDateLocal (msPerDay * N)).data.length = 10 := by
    rw [hfmt, hYdata, hMdata, hDdata]
    rfl
  simp only [parseDateOnly, jsSlice10]
  rw [show (10 : Nat) = (formatDateLocal (msPerDay * N)).data.length from hlen.symm,
    List.take_left]
  rw [hfmt]
  rw [jsSplitOnChar_sep '-' _ _ hYnd, jsSplitOnChar_sep '-' _ _ hMnd,
    jsSplitOnChar_no_sep '-' _ hDnd]
  simp only [List.map, List.getD_cons_zero, List.getD_cons_succ]
  have hyv : jsNumber ⟨(natToString y.toNat).data⟩ = y := by
    simp only [jsNumber, hYdata, List.foldl]
    rw [jsDigit_digitChar _ (by omega), jsDigit_digitChar _ (by omega),
      jsDigit_digitChar _ (by omega), jsDigit_digitChar _ (by omega)]
    have : ((y.toNat : Int)) = y := by omega
    push_cast
    omega
  have hmv : jsNumber ⟨(padStart2 (natToString m.toNat)).data⟩ = m := by
    simp only [jsNumber, hMdata, List.foldl]
    rw [jsDigit_digitChar _ (by omega), jsDigit_digitChar _ (by omega)]
    push_cast
    omega
  have hdv : jsNumber ⟨(padStart2 (natToString d.toNat)).data⟩ = d := by
    simp only [jsNumber, hDdata, List.foldl]
    rw [jsDigit_digitChar _ (by omega), jsDigit_digitChar _ (by omega)]
    push_cast
    omega
  rw [hyv, hmv, hdv]
  simp only [jsDateFromYMD]
  rw [if_neg (by omega)]
  rw [hmk, show N + d - d = N from by ring]

/-! ## Skip label lemmas -/

/-- Every threshold label starts with `'d'`, whatever the threshold value. -/
theorem skipThreshold_head (T : Int) : (skipThreshold T).data.head? = some 'd' := rfl

/-- The threshold label differs from any string not starting with `'d'`. -/
theorem skipThreshold_ne (T : Int) (s : String) (h : s.data.head? ≠ some 'd') :
    skipThreshold T ≠ s :=
  fun he => h (he ▸ skipThreshold_head T)

/-! ## Engine fold lemmas -/

theorem sumCounts_cons (kv : String × Nat) (l : List (String × Nat)) :
    sumCounts (kv :: l) = kv.2 + sumCounts l := by
  simp [sumCounts]

/-- Bumping a reason increments the total count by exactly one. -/
theorem sumCounts_bump (l : List (String × Nat)) (r : String) :
    sumCounts (bump l r) = sumCounts l + 1 := by
  induction l with
  | nil => rfl
  | cons kv rest ih =>
    rcases kv with ⟨k, n⟩
    simp only [bump]
    split_ifs
    · simp only [sumCounts_cons]
      omega
    · simp only [sumCounts_cons, ih]
      omega

/-- Each loop step either emits one decision or increments one skip count:
the combined tally grows by exactly one per item. -/
theorem stepTodo_tally (T B today : Int) (tstr : String)
    (acc : List RescheduleDecision × List (String × Nat)) (todo : TodoRecord) :
    (stepTodo T B today tstr acc todo).1.length + sumCounts (stepTodo T B today tstr acc todo).2 =
      acc.1.length + sumCounts acc.2 + 1 := by
  rcases hcl : classifyTodo T B today tstr todo with r | d <;>
    simp [stepTodo, hcl, sumCounts_bump] <;> omega

/-- Folding the loop over a list grows the combined tally by the list
length. -/
theorem foldl_tally (T B today : Int) (tstr : String) (todos : List TodoRecord)
    (acc : List RescheduleDecision × List (String × Nat)) :
    (todos.foldl (stepTodo T B today tstr) acc).1.length +
        sumCounts (todos.foldl (stepTodo T B today tstr) acc).2 =
      acc.1.length + sumCounts acc.2 + todos.length := by
  induction todos generalizing acc with
  | nil => simp
  | cons td rest ih =>
    rw [List.foldl_cons, ih, stepTodo_tally]
    simp only [List.length_cons]
    omega

/-- The decisions list produced by the fold is the in-order `filterMap` of
the per-item classification. -/
theorem foldl_rescheduled (T B today : Int) (tstr : String) (todos : List TodoRecord)
    (acc : List RescheduleDecision × List (String × Nat)) :
    (todos.foldl (stepTodo T B today tstr) acc).1 =
      acc.1 ++ todos.filterMap (fun td => emitted (classifyTodo T B today tstr td)) := by
  induction todos generalizing acc with
  | nil => simp
  | cons td rest ih =>
    rw [List.foldl_cons, ih]
    rcases hcl : classifyTodo T B today tstr td with r | d <;>
      simp [stepTodo, hcl, emitted, List.filterMap_cons]

/-- Every emitted decision's `newWhen` is the formatted form of a calendar
day strictly after `today`. -/
theorem classifyTodo_emit_newWhen (T B today : Int) (tstr : String) (todo : TodoRecord)
    (dec : RescheduleDecision)
    (h : classifyTodo T B today tstr todo = Outcome.emit dec) :
    ∃ w, today < msPerDay * w ∧ dec.newWhen = formatDateLocal (msPerDay * w) := by
  simp only [classifyTodo] at h
  split_ifs at h with h1 h2 h3 h4 h5 h6
  all_goals first
  | exact Outcome.noConfusion h
  | · injection h with h7
      subst h7
      refine ⟨jsDay (parseDateOnly (todo.dueDate.getD "")) - B, ?_, ?_⟩
      · rw [← newWhen_day]
        omega
      · show formatDateLocal _ = _
        rw [newWhen_day]

/-! ## URL parameter membership lemmas -/

theorem mem_presentParam (kv : String × JsVal) (key : String) (o : Option String) :
    kv ∈ presentParam key o ↔ ∃ s, o = some s ∧ kv = (key, JsVal.str s) := by
  cases o <;> simp [presentParam]

theorem mem_truthyParam (kv : String × JsVal) (key : String) (o : Option String) :
    kv ∈ truthyParam key o ↔ ∃ s, o = some s ∧ ¬(s = "") ∧ kv = (key, JsVal.str s) := by
  cases o with
  | none => simp [truthyParam]
  | some s =>
    simp only [truthyParam]
    split_ifs with h
    · simp [h]
    · simp [h]

theorem mem_presentBoolParam (kv : String × JsVal) (key : String) (o : Option Bool) :
    kv ∈ presentBoolParam key o ↔ ∃ b, o = some b ∧ kv = (key, JsVal.bool b) := by
  cases o <;> simp [presentBoolParam]

theorem notes_mem_updateTodoParamsList (p : UpdateTodoParams) (v : JsVal)
    (h : ("notes", v) ∈ updateTodoParamsList p) : ∃ s, p.notes = some s ∧ v = JsVal.str s := by
  simp only [updateTodoParamsList, List.mem_append, List.mem_cons, List.not_mem_nil, or_false,
    mem_presentParam, mem_truthyParam, mem_presentBoolParam, Prod.mk.injEq, String.reduceEq,
    false_and, and_false, exists_false, or_false, false_or, true_and] at h
  obtain ⟨s, hs, hv⟩ := h
  exact ⟨s, hs, hv⟩

theorem deadline_mem_updateTodoParamsList (p : UpdateTodoParams) (v : JsVal)
    (h : ("deadline", v) ∈ updateTodoParamsList p) : ∃ s, p.deadline = some s ∧ v = JsVal.str s := by
  simp only [updateTodoParamsList, List.mem_append, List.mem_cons, List.not_mem_nil, or_false,
    mem_presentParam, mem_truthyParam, mem_presentBoolParam, Prod.mk.injEq, String.reduceEq,
    false_and, and_false, exists_false, or_false, false_or, true_and] at h
  obtain ⟨s, hs, hv⟩ := h
  exact ⟨s, hs, hv⟩

/-! ## Claim theorems -/

/-- C1: for every open todo with a present deadline that passes the status,
deadline-presence, explicit-today and threshold filters and the no-op guard,
the engine's computed `newWhen` is exactly the deadline's calendar day
minus `bufferDays` — day-number subtraction, not millisecond truncation, so
it rolls across month and year boundaries; in particular deadline
`2026-03-07` with `bufferDays = 3` yields `newWhen = 2026-03-04`. -/
theorem C1_newWhen_calendar_subtraction (T B N : Int) (todo : TodoRecord) (due : String)
    (hstatus : todo.status = "open") (hdue : todo.dueDate = some due) (hne : due ≠ "")
    (hact : ¬(truthyStr todo.activationDate = true ∧
      formatDateLocal (parseDateOnly (todo.activationDate.getD "")) =
        formatDateLocal (msPerDay * N)))
    (hthr : ¬(daysBetween (msPerDay * N) (parseDateOnly due) < T))
    (hguard : ¬(jsSetDate (parseDateOnly due) (getDate (parseDateOnly due) - B) ≤ msPerDay * N)) :
    jsSetDate (parseDateOnly due) (getDate (parseDateOnly due) - B) =
      msPerDay * (jsDay (parseDateOnly due) - B) ∧
    classifyTodo T B (msPerDay * N) (formatDateLocal (msPerDay * N)) todo =
      Outcome.emit
        { id := todo.id
          name := todo.name
          oldWhen :=
            if truthyStr todo.activationDate = true then
              some (formatDateLocal (parseDateOnly (todo.activationDate.getD "")))
            else none
          newWhen := formatDateLocal (msPerDay * (jsDay (parseDateOnly due) - B))
          dueDate := jsSlice10 due
          daysUntilDue := daysBetween (msPerDay * N) (parseDateOnly due) } ∧
    (simulateRescheduleLogic [⟨"t1", "task", "open", some "2026-03-07", none⟩]
        (some 7) (some 3) (msPerDay * 20512)).rescheduled =
      [⟨"t1", "task", none, "2026-03-04", "2026-03-07", 7⟩] := by
  refine ⟨newWhen_day due B, ?_, by decide⟩
  simp only [classifyTodo, hdue, Option.getD_some]
  rw [if_neg (by simp [hstatus]), if_neg (by simp [truthyStr, hne]), if_neg hact,
    if_neg hthr, if_neg hguard, newWhen_day]

/-- C1 witness: a concrete open todo nine days out with `bufferDays = 3`
passes every filter and is rescheduled three days before its deadline. -/
theorem C1_newWhen_calendar_subtraction_witness :
    classifyTodo 7 3 (msPerDay * 20512) (formatDateLocal (msPerDay * 20512))
        ⟨"w", "n", "open", some "2026-03-09", none⟩ =
      Outcome.emit ⟨"w", "n", none, formatDateLocal (msPerDay * (jsDay (parseDateOnly "2026-03-09") - 3)),
        "2026-03-09", 9⟩ := by
  have h := C1_newWhen_calendar_subtraction 7 3 20512 ⟨"w", "n", "open", some "2026-03-09", none⟩
    "2026-03-09" rfl rfl (by decide) (by decide) (by decide) (by decide)
  exact h.2.1

/-- C2: the threshold filter is strict less-than — an open todo with a
deadline (activation not today) is skipped with the value-interpolated
label exactly when `daysUntilDue < daysThreshold`; a deadline exactly
`daysThreshold` days away is eligible (not skipped with that label), and
one `daysThreshold - 1` days away is skipped. -/
theorem C2_threshold_strict (T B N : Int) (todo : TodoRecord) (due : String)
    (hstatus : todo.status = "open") (hdue : todo.dueDate = some due) (hne : due ≠ "")
    (hact : ¬(truthyStr todo.activationDate = true ∧
      formatDateLocal (parseDateOnly (todo.activationDate.getD "")) =
        formatDateLocal (msPerDay * N))) :
    (daysBetween (msPerDay * N) (parseDateOnly due) < T →
      classifyTodo T B (msPerDay * N) (formatDateLocal (msPerDay * N)) todo =
        Outcome.skip (skipThreshold T)) ∧
    (daysBetween (msPerDay * N) (parseDateOnly due) = T →
      classifyTodo T B (msPerDay * N) (formatDateLocal (msPerDay * N)) todo ≠
        Outcome.skip (skipThreshold T)) ∧
    (daysBetween (msPerDay * N) (parseDateOnly due) = T - 1 →
      classifyTodo T B (msPerDay * N) (formatDateLocal (msPerDay * N)) todo =
        Outcome.skip (skipThreshold T)) := by
  simp only [classifyTodo, hdue, Option.getD_some]
  rw [if_neg (by simp [hstatus]), if_neg (by simp [truthyStr, hne]), if_neg hact]
  refine ⟨fun h => ?_, fun h => ?_, fun h => ?_⟩
  · rw [if_pos h]
  · rw [if_neg (by omega)]
    split_ifs <;> intro he <;>
      first
      | (injection he with hl
         exact skipThreshold_ne T skipNoOp (by decide) hl.symm)
      | exact Outcome.noConfusion he
  · rw [if_pos (by omega)]

/-- C2 witness: with the default threshold 7 on 2026-02-28, a deadline of
2026-03-07 (exactly 7 days out) is eligible while 2026-03-06 (6 days out)
is skipped with the interpolated label. -/
theorem C2_threshold_strict_witness :
    classifyTodo 7 3 (msPerDay * 20512) (formatDateLocal (msPerDay * 20512))
        ⟨"w", "n", "open", some "2026-03-07", none⟩ ≠
      Outcome.skip (skipThreshold 7) ∧
    classifyTodo 7 3 (msPerDay * 20512) (formatDateLocal (msPerDay * 20512))
        ⟨"w2", "n", "open", some "2026-03-06", none⟩ =
      Outcome.skip (skipThreshold 7) := by
  constructor
  · exact (C2_threshold_strict 7 3 20512 ⟨"w", "n", "open", some "2026-03-07", none⟩
      "2026-03-07" rfl rfl (by decide) (by decide)).2.1 (by decide)
  · exact (C2_threshold_strict 7 3 20512 ⟨"w2", "n", "open", some "2026-03-06", none⟩
      "2026-03-06" rfl rfl (by decide) (by decide)).2.2 (by decide)

/-- C3: the no-op guard — a todo that passed the first four filters is
skipped with the no-op label whenever the computed `newWhen` is at or
before today's midnight; consequently every emitted decision's `newWhen`
is a calendar day strictly after today, for any input list and
configuration (including overdue deadlines); and with `daysThreshold = 7`,
`bufferDays = 8` and a deadline exactly 8 days out, `newWhen` equals today
and the item is skipped. -/
theorem C3_noop_guard (T B N : Int) (todo : TodoRecord) (due : String)
    (hstatus : todo.status = "open") (hdue : todo.dueDate = some due) (hne : due ≠ "")
    (hact : ¬(truthyStr todo.activationDate = true ∧
      formatDateLocal (parseDateOnly (todo.activationDate.getD "")) =
        formatDateLocal (msPerDay * N)))
    (hthr : ¬(daysBetween (msPerDay * N) (parseDateOnly due) < T)) :
    (jsSetDate (parseDateOnly due) (getDate (parseDateOnly due) - B) ≤ msPerDay * N →
      classifyTodo T B (msPerDay * N) (formatDateLocal (msPerDay * N)) todo =
        Outcome.skip skipNoOp) ∧
    (∀ (todos : List TodoRecord) (Topt Bopt : Option Int) (now : Int)
        (dec : RescheduleDecision),
      dec ∈ (simulateRescheduleLogic todos Topt Bopt now).rescheduled →
      ∃ w, todayMidnightOf now < msPerDay * w ∧ dec.newWhen = formatDateLocal (msPerDay * w)) ∧
    (simulateRescheduleLogic [⟨"t1", "task", "open", some "2026-03-08", none⟩]
        (some 7) (some 8) (msPerDay * 20512)).rescheduled = [] ∧
    (simulateRescheduleLogic [⟨"t1", "task", "open", some "2026-03-08", none⟩]
        (some 7) (some 8) (msPerDay * 20512)).skippedSummary = [(skipNoOp, 1)] ∧
    jsSetDate (parseDateOnly "2026-03-08") (getDate (parseDateOnly "2026-03-08") - 8) =
      msPerDay * 20512 := by
  refine ⟨fun h => ?_, fun todos Topt Bopt now dec hmem => ?_, by decide, by decide, by decide⟩
  · simp only [classifyTodo, hdue, Option.getD_some]
    rw [if_neg (by simp [hstatus]), if_neg (by simp [truthyStr, hne]), if_neg hact,
      if_neg hthr, if_pos h]
  · simp only [simulateRescheduleLogic] at hmem
    rw [foldl_rescheduled] at hmem
    simp only [List.nil_append, List.mem_filterMap] at hmem
    obtain ⟨td, _, hem⟩ := hmem
    rcases hcl : classifyTodo (Topt.getD 7) (Bopt.getD 3) (todayMidnightOf now)
        (formatDateLocal (todayMidnightOf now)) td with r | d
    · rw [hcl] at hem
      exact Option.noConfusion hem
    · rw [hcl] at hem
      injection hem with hd
      subst hd
      exact classifyTodo_emit_newWhen _ _ _ _ _ _ hcl

/-- C3 witness: the guard instance — threshold 7, buffer 8, deadline
2026-03-08 seen from 2026-02-28 — is classified as a no-op skip. -/
theorem C3_noop_guard_witness :
    classifyTodo 7 8 (msPerDay * 20512) (formatDateLocal (msPerDay * 20512))
        ⟨"t1", "task", "open", some "2026-03-08", none⟩ = Outcome.skip skipNoOp := by
  exact (C3_noop_guard 7 8 20512 ⟨"t1", "task", "open", some "2026-03-08", none⟩
    "2026-03-08" rfl rfl (by decide) (by decide) (by decide)).1 (by decide)

/-- C4: filter precedence is fixed, first match wins: status, then deadline
presence, then explicit-today, then threshold, then the no-op guard; each
item yields exactly one outcome (either one decision or one skip-counter
increment, so the combined tally grows by exactly one); and a non-open todo
with no deadline is counted under "status is not open". -/
theorem C4_filter_precedence (T B today : Int) (tstr : String) (todo : TodoRecord) :
    (todo.status ≠ "open" → classifyTodo T B today tstr todo = Outcome.skip skipStatus) ∧
    (todo.status = "open" → truthyStr todo.dueDate = false →
      classifyTodo T B today tstr todo = Outcome.skip skipNoDeadline) ∧
    (todo.status = "open" → truthyStr todo.dueDate = true →
      truthyStr todo.activationDate = true →
      formatDateLocal (parseDateOnly (todo.activationDate.getD "")) = tstr →
      classifyTodo T B today tstr todo = Outcome.skip skipActToday) ∧
    (todo.status = "open" → truthyStr todo.dueDate = true →
      ¬(truthyStr todo.activationDate = true ∧
        formatDateLocal (parseDateOnly (todo.activationDate.getD "")) = tstr) →
      daysBetween today (parseDateOnly (todo.dueDate.getD "")) < T →
      classifyTodo T B today tstr todo = Outcome.skip (skipThreshold T)) ∧
    (todo.status = "open" → truthyStr todo.dueDate = true →
      ¬(truthyStr todo.activationDate = true ∧
        formatDateLocal (parseDateOnly (todo.activationDate.getD "")) = tstr) →
      ¬(daysBetween today (parseDateOnly (todo.dueDate.getD "")) < T) →
      jsSetDate (parseDateOnly (todo.dueDate.getD ""))
          (getDate (parseDateOnly (todo.dueDate.getD "")) - B) ≤ today →
      classifyTodo T B today tstr todo = Outcome.skip skipNoOp) ∧
    (∀ acc, (stepTodo T B today tstr acc todo).1.length +
        sumCounts (stepTodo T B today tstr acc todo).2 =
      acc.1.length + sumCounts acc.2 + 1) ∧
    classifyTodo T B today tstr ⟨"x", "x", "completed", none, none⟩ =
      Outcome.skip skipStatus := by
  refine ⟨fun h1 => ?_, fun h1 h2 => ?_, fun h1 h2 h3 h4 => ?_, fun h1 h2 h3 h4 => ?_,
    fun h1 h2 h3 h4 h5 => ?_, fun acc => stepTodo_tally T B today tstr acc todo, ?_⟩
  · simp only [classifyTodo]
    rw [if_pos h1]
  · simp only [classifyTodo]
    rw [if_neg (by simp [h1]), if_pos h2]
  · simp only [classifyTodo]
    rw [if_neg (by simp [h1]), if_neg (by simp [h2]), if_pos ⟨h3, h4⟩]
  · simp only [classifyTodo]
    rw [if_neg (by simp [h1]), if_neg (by simp [h2]), if_neg h3, if_pos h4]
  · simp only [classifyTodo]
    rw [if_neg (by simp [h1]), if_neg (by simp [h2]), if_neg h3, if_neg h4, if_pos h5]
  · simp only [classifyTodo]
    rw [if_pos (by decide)]

/-- C4 witness: concrete precedence checks — a completed todo without a
deadline is counted under the status reason, and one loop step over it
increases the tally by one. -/
theorem C4_filter_precedence_witness :
    classifyTodo 7 3 0 "x" ⟨"a", "b", "completed", none, none⟩ = Outcome.skip skipStatus ∧
    (stepTodo 7 3 0 "x" ([], []) ⟨"a", "b", "completed", none, none⟩).1.length +
        sumCounts (stepTodo 7 3 0 "x" ([], []) ⟨"a", "b", "completed", none, none⟩).2 =
      ([] : List RescheduleDecision).length + sumCounts [] + 1 := by
  constructor
  · exact (C4_filter_precedence 7 3 0 "x" ⟨"a", "b", "completed", none, none⟩).1 (by decide)
  · exact (C4_filter_precedence 7 3 0 "x" ⟨"a", "b", "completed", none, none⟩).2.2.2.2.2.1 ([], [])

/-- C5: explicit-today protection — an open todo with a deadline whose
activation date formats to today's string is skipped with the protection
label regardless of deadline distance, and inserting it anywhere in the
input leaves the engine's decisions unchanged; an activation formatting to
any other calendar day does not trigger the protection label. -/
theorem C5_explicit_today (T B today : Int) (tstr : String) (todo : TodoRecord) (a : String)
    (hstatus : todo.status = "open") (hdueT : truthyStr todo.dueDate = true)
    (hactT : todo.activationDate = some a) (ha : a ≠ "") :
    (formatDateLocal (parseDateOnly a) = tstr →
      classifyTodo T B today tstr todo = Outcome.skip skipActToday) ∧
    (formatDateLocal (parseDateOnly a) ≠ tstr →
      classifyTodo T B today tstr todo ≠ Outcome.skip skipActToday) ∧
    (∀ (Topt Bopt : Option Int) (now : Int) (pre post : List TodoRecord),
      formatDateLocal (parseDateOnly a) = formatDateLocal (todayMidnightOf now) →
      (simulateRescheduleLogic (pre ++ todo :: post) Topt Bopt now).rescheduled =
        (simulateRescheduleLogic (pre ++ post) Topt Bopt now).rescheduled) := by
  have key : ∀ (T' B' today' : Int) (tstr' : String),
      formatDateLocal (parseDateOnly a) = tstr' →
      classifyTodo T' B' today' tstr' todo = Outcome.skip skipActToday := by
    intro T' B' today' tstr' hfmt
    simp only [classifyTodo, hactT, Option.getD_some]
    rw [if_neg (by simp [hstatus]), if_neg (by simp [hdueT]),
      if_pos ⟨by simp [truthyStr, hactT, ha], hfmt⟩]
  refine ⟨key T B today tstr, fun hfmt => ?_, fun Topt Bopt now pre post hfmt => ?_⟩
  · simp only [classifyTodo, hactT, Option.getD_some]
    rw [if_neg (by simp [hstatus]), if_neg (by simp [hdueT]),
      if_neg (by rintro ⟨_, h2⟩; exact hfmt h2)]
    split_ifs <;> intro he
    · injection he with hl
      exact skipThreshold_ne T skipActToday (by decide) hl
    · injection he with hl
      exact absurd hl (by decide)
    · exact Outcome.noConfusion he
    · exact Outcome.noConfusion he
  · have hskip := key (Topt.getD 7) (Bopt.getD 3) (todayMidnightOf now)
      (formatDateLocal (todayMidnightOf now)) hfmt
    simp only [simulateRescheduleLogic]
    rw [foldl_rescheduled, foldl_rescheduled]
    simp [List.filterMap_append, List.filterMap_cons, hskip, emitted]

/-- C5 witness: a todo activated on 2026-02-28 with a far deadline is
protected on 2026-02-28, and one activated on 2026-02-27 is not skipped
with the protection label. -/
theorem C5_explicit_today_witness :
    classifyTodo 7 3 (msPerDay * 20512) (formatDateLocal (msPerDay * 20512))
        ⟨"p", "n", "open", some "2026-06-01", some "2026-02-28T00:00:00.000Z"⟩ =
      Outcome.skip skipActToday ∧
    classifyTodo 7 3 (msPerDay * 20512) (formatDateLocal (msPerDay * 20512))
        ⟨"q", "n", "open", some "2026-06-01", some "2026-02-27T00:00:00.000Z"⟩ ≠
      Outcome.skip skipActToday := by
  constructor
  · exact (C5_explicit_today 7 3 (msPerDay * 20512) (formatDateLocal (msPerDay * 20512))
      ⟨"p", "n", "open", some "2026-06-01", some "2026-02-28T00:00:00.000Z"⟩
      "2026-02-28T00:00:00.000Z" rfl (by decide) rfl (by decide)).1 (by decide)
  · exact (C5_explicit_today 7 3 (msPerDay * 20512) (formatDateLocal (msPerDay * 20512))
      ⟨"q", "n", "open", some "2026-06-01", some "2026-02-27T00:00:00.000Z"⟩
      "2026-02-27T00:00:00.000Z" rfl (by decide) rfl (by decide)).2.1 (by decide)

/-- C6: `daysBetween` — the floor of the millisecond difference divided by
`msPerDay` — returns the exact signed day count between any two
local-midnight calendar days, and in particular is exact across the 2024
leap-year boundary and over the 36525-day span from 2000-01-01 to
2100-01-01. -/
theorem C6_daysBetween_exact :
    (∀ a b : Int, daysBetween (msPerDay * a) (msPerDay * b) = b - a) ∧
    daysBetween (parseDateOnly "2024-02-28") (parseDateOnly "2024-02-29") = 1 ∧
    daysBetween (parseDateOnly "2024-02-29") (parseDateOnly "2024-03-01") = 1 ∧
    daysBetween (parseDateOnly "2000-01-01") (parseDateOnly "2100-01-01") = 36525 :=
  ⟨daysBetween_midnight, by decide, by decide, by decide⟩

/-- C7 counterexample: `"0100-01-02"` is a valid zero-padded `YYYY-MM-DD`
calendar date (year 100), but the round trip renders the year unpadded:
`formatCalendarDay(toCalendarDay(s))` yields `"100-01-02"`, not the leading
ten characters of `s`.  (Years 0–99 additionally hit the `Date`
constructor's 1900 mapping: `"0050-01-02"` comes back as `"1950-01-02"`.) -/
theorem C7_roundtrip_counterexample :
    jsSlice10 "0100-01-02T00:00:00.000Z" = "0100-01-02" ∧
    formatDateLocal (parseDateOnly "0100-01-02T00:00:00.000Z") = "100-01-02" ∧
    formatDateLocal (parseDateOnly "0100-01-02T00:00:00.000Z") ≠ "0100-01-02" ∧
    formatDateLocal (parseDateOnly "0050-01-02") = "1950-01-02" := by
  refine ⟨by decide, by decide, by decide, by decide⟩

/-- C7 (amended): for every input string whose leading 10 characters are a
valid zero-padded `YYYY-MM-DD` date with a four-digit year from 1000 to
9999 — i.e. the formatted form of a day number `N` whose year lies in that
range — `formatCalendarDay (toCalendarDay s)` reproduces exactly those
leading 10 characters, whatever time-of-day or zone suffix follows. -/
theorem C7_roundtrip_amended (N : Int) (rest : List Char)
    (h1 : 1000 ≤ (civilFromDays N).1) (h2 : (civilFromDays N).1 ≤ 9999) :
    jsSlice10 ⟨(formatDateLocal (msPerDay * N)).data ++ rest⟩ =
      formatDateLocal (msPerDay * N) ∧
    formatDateLocal (parseDateOnly ⟨(formatDateLocal (msPerDay * N)).data ++ rest⟩) =
      formatDateLocal (msPerDay * N) := by
  have hb := civilFromDays_bounds N
  have hfmt := formatDateLocal_midnight_data N (by omega)
  have hlen : (formatDateLocal (msPerDay * N)).data.length = 10 := by
    rw [hfmt, natToString_four (civilFromDays N).1.toNat (by omega) (by omega),
      pad2_natToString (civilFromDays N).2.1.toNat (by omega),
      pad2_natToString (civilFromDays N).2.2.toNat (by omega)]
    rfl
  constructor
  · show (⟨((formatDateLocal (msPerDay * N)).data ++ rest).take 10⟩ : String) = _
    rw [show (10 : Nat) = (formatDateLocal (msPerDay * N)).data.length from hlen.symm,
      List.take_left]
  · rw [parse_format_roundtrip N rest h1 h2]

/-- C7 witness: the formatted form of day 20512 (2026-02-28) with a
time-and-zone suffix round-trips to itself. -/
theorem C7_roundtrip_amended_witness :
    1000 ≤ (civilFromDays 20512).1 ∧
    formatDateLocal (parseDateOnly ⟨(formatDateLocal (msPerDay * 20512)).data ++
        "T09:30:00+09:00".data⟩) = formatDateLocal (msPerDay * 20512) :=
  ⟨by decide, (C7_roundtrip_amended 20512 "T09:30:00+09:00".data (by decide) (by decide)).2⟩

/-- C8: conservation — `totalToday` is the input length; decisions plus the
sum of all skip counts equals `totalToday`; the empty input yields the
empty report; and three deadline-less items aggregate to a count of 3 under
"no deadline set". -/
theorem C8_conservation (todos : List TodoRecord) (Topt Bopt : Option Int) (now : Int) :
    (simulateRescheduleLogic todos Topt Bopt now).totalToday = todos.length ∧
    (simulateRescheduleLogic todos Topt Bopt now).rescheduled.length +
        sumCounts (simulateRescheduleLogic todos Topt Bopt now).skippedSummary =
      todos.length ∧
    simulateRescheduleLogic [] Topt Bopt now =
      ⟨[], [], 0⟩ ∧
    countOf (simulateRescheduleLogic
        [⟨"1", "NoDL1", "open", none, none⟩, ⟨"2", "NoDL2", "open", none, none⟩,
          ⟨"3", "NoDL3", "open", none, none⟩] Topt Bopt now).skippedSummary
      skipNoDeadline = 3 := by
  refine ⟨rfl, ?_, rfl, ?_⟩
  · simp only [simulateRescheduleLogic]
    rw [foldl_tally]
    simp [sumCounts]
  · simp only [simulateRescheduleLogic, List.foldl]
    rfl

/-- C9: auth precondition (spec-modelled tool boundary) — when no token
resolves from the explicit parameter or the process-wide fallback, the tool
returns the structured "Auth token is required" error, and the response is
independent of the Today-list fetch and the evaluation instant: no external
call or engine evaluation influences it.  The model is a total function, so
no exception escapes the invocation boundary. -/
theorem C9_auth_precondition (authToken fallback : Option String) (dryRun : Bool)
    (Topt Bopt : Option Int) (fetch1 fetch2 : Unit → List TodoRecord) (now1 now2 : Int)
    (h : resolveAuthToken authToken fallback = none) :
    rescheduleDistantTodos authToken fallback dryRun Topt Bopt fetch1 now1 =
      ToolResponse.err "Auth token is required" ∧
    rescheduleDistantTodos authToken fallback dryRun Topt Bopt fetch1 now1 =
      rescheduleDistantTodos authToken fallback dryRun Topt Bopt fetch2 now2 := by
  unfold rescheduleDistantTodos
  rw [h]
  exact ⟨rfl, rfl⟩

/-- C9 witness: with no explicit token and no fallback, the tool errors
identically whatever the Today list would have contained. -/
theorem C9_auth_precondition_witness :
    rescheduleDistantTodos none none true none none (fun _ => []) 0 =
      ToolResponse.err "Auth token is required" ∧
    rescheduleDistantTodos none none true none none (fun _ => []) 0 =
      rescheduleDistantTodos none none true none none
        (fun _ => [⟨"1", "n", "open", some "2026-03-20", none⟩]) (msPerDay * 20512) :=
  C9_auth_precondition none none true none none (fun _ => [])
    (fun _ => [⟨"1", "n", "open", some "2026-03-20", none⟩]) 0 (msPerDay * 20512) rfl

/-- C10: `buildURL` drops every parameter whose value is `undefined` or the
empty string — when everything is filtered it returns the bare
`things:///<command>` URL, no surviving pair carries `undefined` or `""`,
and `buildUpdateTodoURL` with the clearable `notes`/`deadline` fields set
to `""` produces no such key at all (shown on the surviving key set and on
a concrete URL). -/
theorem C10_buildURL_drops_empty :
    (∀ (cmd : String) (params : List (String × JsVal)), filteredParams params = [] →
      buildURL cmd params = "things:///" ++ cmd) ∧
    (∀ (params : List (String × JsVal)) (kv : String × JsVal), kv ∈ filteredParams params →
      kv.2 ≠ JsVal.undef ∧ kv.2 ≠ JsVal.str "") ∧
    (∀ p : UpdateTodoParams, p.notes = some "" →
      "notes" ∉ (filteredParams (updateTodoParamsList p)).map Prod.fst) ∧
    (∀ p : UpdateTodoParams, p.deadline = some "" →
      "deadline" ∉ (filteredParams (updateTodoParamsList p)).map Prod.fst) ∧
    buildUpdateTodoURL
        ⟨"tok123", "abc-123", none, some "", none, none, some "2026-05-01", some "", none,
          none, none, none, none, none, none, none, none, none, none, none, none, none, none⟩ =
      "things:///update?auth-token=tok123&id=abc-123&when=2026-05-01" := by
  refine ⟨fun cmd params h => ?_, fun params kv h => ?_, fun p hp h => ?_, fun p hp h => ?_,
    by decide⟩
  · simp [buildURL, h]
  · rw [filteredParams, List.mem_filter] at h
    have h2 := h.2
    simp only [Bool.and_eq_true, bne, Bool.not_eq_true'] at h2
    constructor
    · intro he
      rw [he] at h2
      simp at h2
    · intro he
      rw [he] at h2
      simp at h2
  · rw [List.mem_map] at h
    obtain ⟨kv, hkv, hfst⟩ := h
    rw [filteredParams, List.mem_filter] at hkv
    obtain ⟨hmem, hval⟩ := hkv
    rcases kv with ⟨k, v⟩
    simp only at hfst
    subst hfst
    obtain ⟨s, hs, hv⟩ := notes_mem_updateTodoParamsList p v hmem
    rw [hp] at hs
    injection hs with hs
    subst hs
    subst hv
    simp at hval
  · rw [List.mem_map] at h
    obtain ⟨kv, hkv, hfst⟩ := h
    rw [filteredParams, List.mem_filter] at hkv
    obtain ⟨hmem, hval⟩ := hkv
    rcases kv with ⟨k, v⟩
    simp only at hfst
    subst hfst
    obtain ⟨s, hs, hv⟩ := deadline_mem_updateTodoParamsList p v hmem
    rw [hp] at hs
    injection hs with hs
    subst hs
    subst hv
    simp at hval

/-- C10 witness: all-filtered parameters give the bare URL, and an
update-todo invocation clearing `notes` carries no `notes` key. -/
theorem C10_buildURL_drops_empty_witness :
    buildURL "add" [("title", JsVal.undef), ("notes", JsVal.str "")] = "things:///add" ∧
    "notes" ∉ (filteredParams (updateTodoParamsList
        ⟨"tok123", "abc-123", none, some "", none, none, some "2026-05-01", some "", none,
          none, none, none, none, none, none, none, none, none, none, none, none, none,
          none⟩)).map Prod.fst := by
  constructor
  · exact C10_buildURL_drops_empty.1 "add" [("title", JsVal.undef), ("notes", JsVal.str "")]
      (by decide)
  · exact C10_buildURL_drops_empty.2.2.1
      ⟨"tok123", "abc-123", none, some "", none, none, some "2026-05-01", some "", none,
        none, none, none, none, none, none, none, none, none, none, none, none, none, none⟩
      rfl
